import Mathlib

/-!
Verification of find_pointings.py: a shallow embedding of its directory-list
loader, ignore-list loader, tree walker, metadata extractor and report
writer, with theorems settling the specification claims.

Python strings are modelled as lists of characters; the per-file properties
dictionary as a total map from field names to stored values; external tool
invocations by their observable outcomes; exceptions and sys.exit by
explicit error values.
-/

namespace FindPointings

/-- Characters of a Python string: all string manipulation in the embedded
program is modelled on lists of characters (code points), matching Python
semantics. -/
abbrev Str := List Char

/-- Python str.strip() with no argument: remove leading and trailing
whitespace. -/
def pyStrip (s : Str) : Str :=
  ((s.dropWhile Char.isWhitespace).reverse.dropWhile Char.isWhitespace).reverse

/-- Python substring membership `pat in s`: pat occurs contiguously in s
(the empty pattern occurs in every string). -/
def subIn (pat : Str) : Str → Bool
  | [] => pat.isPrefixOf []
  | c :: t => pat.isPrefixOf (c :: t) || subIn pat t

/-- Python str.split(" = ") as used on each readfile output line: cut at
each leftmost non-overlapping occurrence of the three-character
separator. -/
def splitSepEq : Str → List Str
  | ' ' :: '=' :: ' ' :: rest => [] :: splitSepEq rest
  | c :: rest =>
      match splitSepEq rest with
      | [] => [[c]]
      | g :: gs => (c :: g) :: gs
  | [] => [[]]

/-- Python str.split on the tab character: a tab opens a new group, any
other character is prepended to the first group of the remainder (the
recursive result is never empty, so headD and tail read its first
group). -/
def splitTab : Str → List Str
  | [] => [[]]
  | c :: rest =>
      let r := splitTab rest
      if c = '\t' then [] :: r
      else (c :: r.headD []) :: r.tail

/-- Python str.split(" "), used for the Num_pols value. -/
def splitSpace : Str → List Str
  | ' ' :: rest => [] :: splitSpace rest
  | c :: rest =>
      match splitSpace rest with
      | [] => [[c]]
      | g :: gs => (c :: g) :: gs
  | [] => [[]]

/-- Python str.split(" of "), used for the Beam value. -/
def splitOf : Str → List Str
  | ' ' :: 'o' :: 'f' :: ' ' :: rest => [] :: splitOf rest
  | c :: rest =>
      match splitOf rest with
      | [] => [[c]]
      | g :: gs => (c :: g) :: gs
  | [] => [[]]

/-- Python str.split() with no argument: split on runs of whitespace,
discarding empty tokens; the accumulator holds the current token
reversed. -/
def splitWsAux : Str → Str → List Str
  | [], cur => if cur = [] then [] else [cur.reverse]
  | c :: rest, cur =>
      if c.isWhitespace then
        if cur = [] then splitWsAux rest []
        else cur.reverse :: splitWsAux rest []
      else splitWsAux rest (c :: cur)

/-- Python str.split() with no argument. -/
def splitWs (s : Str) : List Str := splitWsAux s []

/-- Every tab replaced by a space: the effect of the source loop
`while TAB in line: line = line.replace(TAB, SPACE)` (one replace call
already removes every tab, so the loop body runs at most once). -/
def replTabs (s : Str) : Str := s.map fun c => if c = '\t' then ' ' else c

/-- One pass of Python str.replace("  ", " "): each leftmost non-overlapping
occurrence of two spaces becomes one space. -/
def replDouble : Str → Str
  | ' ' :: ' ' :: rest => ' ' :: replDouble rest
  | c :: rest => c :: replDouble rest
  | [] => []

/-- Does the string contain two adjacent spaces? -/
def hasDouble : Str → Bool
  | ' ' :: ' ' :: _ => true
  | _ :: rest => hasDouble rest
  | [] => false

/-- A replace pass never lengthens the string. -/
theorem replDouble_length_le : ∀ s : Str, (replDouble s).length ≤ s.length
  | ' ' :: ' ' :: rest => by
      simpa [replDouble] using Nat.le_succ_of_le
        (Nat.succ_le_succ (replDouble_length_le rest))
  | [c] => by simp [replDouble]
  | c :: c' :: rest => by
      by_cases h : c = ' ' ∧ c' = ' '
      · obtain ⟨rfl, rfl⟩ := h
        simpa [replDouble] using Nat.le_succ_of_le
          (Nat.succ_le_succ (replDouble_length_le rest))
      · have : replDouble (c :: c' :: rest) = c :: replDouble (c' :: rest) := by
          rcases Decidable.em (c = ' ') with rfl | hc
          · rcases Decidable.em (c' = ' ') with rfl | hc'
            · exact absurd ⟨rfl, rfl⟩ h
            · rw [replDouble.eq_def]
              simp [hc']
          · rw [replDouble.eq_def]
            simp [hc]
        rw [this]
        exact Nat.succ_le_succ (replDouble_length_le (c' :: rest))
  | [] => by simp [replDouble]

/-- When a double space is present, a replace pass strictly shortens the
string. -/
theorem replDouble_length_lt : ∀ s : Str, hasDouble s = true →
    (replDouble s).length < s.length
  | ' ' :: ' ' :: rest, _ => by
      simpa [replDouble] using Nat.succ_lt_succ
        (Nat.lt_succ_of_le (replDouble_length_le rest))
  | [c], h => by simp [hasDouble] at h
  | c :: c' :: rest, h => by
      by_cases hcc : c = ' ' ∧ c' = ' '
      · obtain ⟨rfl, rfl⟩ := hcc
        simpa [replDouble] using Nat.succ_lt_succ
          (Nat.lt_succ_of_le (replDouble_length_le rest))
      · have hrepl : replDouble (c :: c' :: rest) = c :: replDouble (c' :: rest) := by
          rcases Decidable.em (c = ' ') with rfl | hc
          · rcases Decidable.em (c' = ' ') with rfl | hc'
            · exact absurd ⟨rfl, rfl⟩ hcc
            · rw [replDouble.eq_def]
              simp [hc']
          · rw [replDouble.eq_def]
            simp [hc]
        have hhas : hasDouble (c' :: rest) = true := by
          rcases Decidable.em (c = ' ') with rfl | hc
          · rcases Decidable.em (c' = ' ') with rfl | hc'
            · exact absurd ⟨rfl, rfl⟩ hcc
            · rw [hasDouble.eq_def] at h
              simpa [hc'] using h
          · rw [hasDouble.eq_def] at h
            simpa [hc] using h
        rw [hrepl]
        exact Nat.succ_lt_succ (replDouble_length_lt (c' :: rest) hhas)
  | [], h => by simp [hasDouble] at h

/-- The source loop `while DOUBLESPACE in line: line = line.replace(...)`:
replace passes applied until no two adjacent spaces remain. -/
def collapseSpaces (s : Str) : Str :=
  if h : hasDouble s = true then collapseSpaces (replDouble s) else s
termination_by s.length
decreasing_by exact replDouble_length_lt s h

/-- The extension part of os.path.splitext: the suffix of the final path
component starting at its last dot, unless every character of that
component before the dot is itself a dot (leading dots never start an
extension). -/
def pyExt (path : Str) : Str :=
  let base := (path.reverse.takeWhile fun c => c != '/').reverse
  let r := base.reverse
  let afterR := r.takeWhile fun c => c != '.'
  if afterR.length = r.length then []
  else
    let preR := r.drop (afterR.length + 1)
    if preR.any (fun c => c != '.') then '.' :: afterR.reverse else []

/-- os.path.join(root, name) for POSIX paths: name replaces root when
absolute, otherwise it is appended, inserting a slash unless root is empty
or already ends in one. -/
def pyJoin (root name : Str) : Str :=
  if name.headD ' ' = '/' then name
  else if root = [] then name
  else if root.getLastD ' ' = '/' then root ++ name
  else root ++ '/' :: name

/-- Python str.endswith. -/
def pyEndswith (s suffix : Str) : Bool := suffix.isSuffixOf s

/-- The tail of a Python digit group after its first digit: digits with
single underscores allowed only between digits. -/
def digitRunTail : Str → Bool
  | [] => true
  | '_' :: rest =>
      match rest with
      | c :: r => c.isDigit && digitRunTail r
      | [] => false
  | c :: rest => c.isDigit && digitRunTail rest

/-- A Python digit group (digitpart): at least one digit, underscores only
between digits. -/
def digitRun : Str → Bool
  | [] => false
  | c :: rest => c.isDigit && digitRunTail rest

/-- The mantissa of a Python float literal: an optional integer part, and a
fractional part required when the integer part is absent. -/
def mantissaOk (s : Str) : Bool :=
  let intPart := s.takeWhile fun c => c != '.'
  match s.drop intPart.length with
  | [] => digitRun intPart
  | _ :: frac =>
      if frac = [] then digitRun intPart
      else if intPart = [] then digitRun frac
      else digitRun intPart && digitRun frac

/-- The exponent of a Python float literal: an optional sign and a digit
group. -/
def expOk : Str → Bool
  | '+' :: r => digitRun r
  | '-' :: r => digitRun r
  | r => digitRun r

/-- A signless numeric Python float literal: a mantissa optionally followed
by e or E and an exponent. -/
def pyFloatNum (s : Str) : Bool :=
  let mant := s.takeWhile fun c => !(c = 'e' || c = 'E')
  match s.drop mant.length with
  | [] => mantissaOk mant
  | _ :: ex => mantissaOk mant && expOk ex

/-- Python float(str) acceptance: surrounding whitespace stripped, an
optional sign, then inf, infinity or nan in any case, or a numeric
literal.  Rejected strings raise ValueError. -/
def pyFloatOk (s : Str) : Bool :=
  let t := pyStrip s
  let body :=
    match t with
    | '+' :: r => r
    | '-' :: r => r
    | r => r
  let lb := body.map Char.toLower
  lb = "inf".toList || lb = "infinity".toList || lb = "nan".toList || pyFloatNum body

/-- The fixed, ordered schema of report fields (prop_names in the source);
its order is the column order of the report. -/
def prop_names : List Str :=
  ["Path".toList, "Survey".toList, "Telescope".toList, "Frontend".toList,
   "Backend".toList, "MJD".toList, "RA J2000".toList, "Dec J2000".toList,
   "Freq".toList, "Length".toList, "Sampling time".toList, "Bandwidth".toList,
   "Freq channels".toList, "Num_pols".toList, "Source name".toList,
   "Bits".toList, "Beam".toList, "f_high".toList, "f_low".toList,
   "Pol_type".toList, "Backend_mode".toList]

/-- A value stored in the properties dictionary.  The source stores strings,
except the integer 0 written as the Beam default; the converted sampling
time str(float(raw)/1000) is kept symbolically through its raw operand,
since no claim depends on the printed digits and a printed float is never
the string None. -/
inductive PropValue where
  | str : Str → PropValue
  | int : Int → PropValue
  | sampTime : Str → PropValue
deriving DecidableEq

/-- The properties dictionary: a total map from field names to values; the
source only ever reads and writes keys drawn from prop_names. -/
def Props := Str → PropValue

/-- Dictionary update props[k] = v. -/
def setProp (p : Props) (k : Str) (v : PropValue) : Props :=
  fun n => if n = k then v else p n

/-- Dictionary lookup props[n]. -/
def getProp (p : Props) (n : Str) : PropValue := p n

/-- The initialization loop of parse_fits_or_fil: every schema field set to
the missing sentinel. -/
def initProps : Props := fun _ => PropValue.str "None".toList

/-- A conditional dictionary update: the shape of each if statement in the
parse loop of parse_fits_or_fil. -/
def condSet (c : Bool) (k : Str) (v : PropValue) (p : Props) : Props :=
  if c then setProp p k v else p

/-- Python exceptions relevant to the program. -/
inductive PyErr where
  | typeError
  | valueError
  | indexError
  | calledProcessError
deriving DecidableEq

/-- The body of the parse loop of parse_fits_or_fil for one line of tool A
(readfile) output: strip the line, split it on " = ", and run the chain of
if statements in source order.  When the split yields a single part, every
branch that would read the value raises IndexError before assigning, the
except handler swallows it, and the dictionary is unchanged.  float(...)
applied to a string that is not a valid Python float literal raises a
ValueError that no handler catches. -/
def processLine (p : Props) (line : Str) : Except PyErr Props :=
  match splitSepEq (pyStrip line) with
  | k :: v :: _ =>
      if k = "Sample time (us)".toList && !(pyFloatOk v) then
        Except.error PyErr.valueError
      else
        let p := condSet (prop_names.contains k) k (.str v) p
        let p := condSet (subIn "MJD start time".toList k) "MJD".toList (.str v) p
        let p := condSet (k = "Central freq (MHz)".toList) "Freq".toList (.str v) p
        let p := condSet (k = "Source Name".toList) "Source name".toList (.str v) p
        let p := condSet (k = "Sample time (us)".toList) "Sampling time".toList (.sampTime v) p
        let p := condSet (subIn "Total Bandwidth".toList k) "Bandwidth".toList (.str v) p
        let p := condSet (k = "Number of channels".toList) "Freq channels".toList (.str v) p
        let p := condSet (k = "Polarization type".toList) "Pol_type".toList (.str v) p
        let p := condSet (k = "Number of polns".toList) "Num_pols".toList
          (.str ((splitSpace v).headD [])) p
        let p := condSet (subIn "bits".toList k) "Bits".toList (.str v) p
        let p := condSet (k = "Beam".toList) "Beam".toList (.str ((splitOf v).headD [])) p
        let p := condSet (k = "Low channel (MHz)".toList) "f_high".toList (.str v) p
        let p := condSet (k = "High channel (MHz)".toList) "f_low".toList (.str v) p
        let p := condSet (subIn "Time per file".toList k) "Length".toList (.str v) p
        Except.ok p
  | _ => Except.ok p

/-- The tool A parse loop over all lines of readfile output. -/
def processLines (p : Props) (lines : List Str) : Except PyErr Props :=
  lines.foldlM processLine p

/-- Processing of one line of tool B (psredit) output: strip, replace tabs by
spaces, collapse double spaces until none remain, and when the line
mentions obs_mode store its last whitespace-separated token as the backend
mode (the membership test guarantees the line has at least one token). -/
def processBLine (p : Props) (line : Str) : Props :=
  let l := collapseSpaces (replTabs (pyStrip line))
  if subIn "obs_mode".toList l then
    setProp p "Backend_mode".toList (.str ((splitWs l).getLastD []))
  else p

/-- The observable outcome of invoking one external tool and reading its
output back through the temporary file: the invocation fails (a nonzero
exit raising CalledProcessError), decoding the output raises
UnicodeDecodeError, or a list of output lines is obtained. -/
inductive ToolRun where
  | callFails
  | decodeFails
  | ok : List Str → ToolRun

/-- Process-level termination: sys.exit with its status, or an uncaught
exception (CPython then exits with status 1, but no claim relies on
that). -/
inductive Abort where
  | sysExit : Nat → Abort
  | uncaught : PyErr → Abort
deriving DecidableEq

/-- How a call to parse_fits_or_fil ends: a populated dictionary, a
UnicodeDecodeError that the caller catches, or an abort of the whole
process. -/
inductive ParseOutcome where
  | ok : Props → ParseOutcome
  | unicodeError : ParseOutcome
  | abort : Abort → ParseOutcome

/-- Is the stored value the missing sentinel?  Only a directly stored string
can equal None: the Beam integer and a printed float are different Python
values. -/
def isNoneVal : PropValue → Bool
  | .str s => s == "None".toList
  | _ => false

/-- The source test NONE in props.values() over the schema keys (the
dictionary holds exactly the prop_names keys). -/
def anyNone (p : Props) : Bool := prop_names.any fun n => isNoneVal (p n)

/-- The missing-field diagnostic block at the end of parse_fits_or_fil: when
any field still equals the sentinel, the loop body evaluates
prop_names[name], indexing a list with a string key, which raises an
uncaught TypeError; otherwise the populated dictionary is returned. -/
def finishParse (p : Props) : ParseOutcome :=
  if anyNone p then ParseOutcome.abort (Abort.uncaught PyErr.typeError)
  else ParseOutcome.ok p

/-- parse_fits_or_fil: initialize all fields to the sentinel, run readfile
(tool A) writing to a temporary file, aborting the whole process through
an argumentless sys.exit when the invocation fails; read its output back
(a decode failure raises UnicodeDecodeError to the caller) and run the
parse loop, with the Beam field first defaulted to the integer 0; for a
path whose extension is not .fil also run psredit (tool B), whose
invocation failure raises an uncaught CalledProcessError, and scan its
lines for obs_mode; finally run the missing-field diagnostic block. -/
def parseFitsOrFil (path : Str) (ta tb : ToolRun) : ParseOutcome :=
  match ta with
  | .callFails => ParseOutcome.abort (Abort.sysExit 0)
  | .decodeFails => ParseOutcome.unicodeError
  | .ok aLines =>
      match processLines (setProp initProps "Beam".toList (PropValue.int 0)) aLines with
      | .error e => ParseOutcome.abort (Abort.uncaught e)
      | .ok p =>
          if pyExt path ≠ ".fil".toList then
            match tb with
            | .callFails => ParseOutcome.abort (Abort.uncaught PyErr.calledProcessError)
            | .decodeFails => ParseOutcome.unicodeError
            | .ok bLines => finishParse (bLines.foldl processBLine p)
          else finishParse p

/-- The field of the record returned by a parse outcome, when the outcome
is a returned record. -/
def outcomeField (o : ParseOutcome) (n : Str) : Option PropValue :=
  match o with
  | .ok pr => some (getProp pr n)
  | _ => none

/-- The ignore-list configuration: the module-level ignored_files and
ignored_dirs lists. -/
structure IgnoreCfg where
  ignored_files : List Str
  ignored_dirs : List Str

/-- is_good from the source: a path is good unless some ignored directory
substring occurs in it or it equals an ignored file path. -/
def is_good (cfg : IgnoreCfg) (path : Str) : Bool :=
  !(cfg.ignored_dirs.any fun d => subIn d path) && !(cfg.ignored_files.contains path)

/-- The four per-survey accumulators of grab_pointings_from_survey. -/
structure WalkState where
  pointings : List (List PropValue)
  broken_symlinks : List Str
  empty_files : List Str
  encoding_errors : List Str
deriving DecidableEq

/-- What the walker observes about one directory entry: its location and
name, whether it is a symbolic link and whether the link target exists,
the size reported by ls -l, and the outcomes of the two external tools.
ls -l does not follow links, so for a symbolic link the reported size is
the length of its never-empty target path; the hypothesis islink implies
size nonzero in the theorems records that fact. -/
structure FileInfo where
  root : Str
  filename : Str
  islink : Bool
  target_exists : Bool
  size : Nat
  ta : ToolRun
  tb : ToolRun

/-- The record appended to pointings for one parsed file: Path and Survey
filled in by the caller, then the values listed in schema order. -/
def mkInfo (p : Props) (path survey : Str) : List PropValue :=
  let p := setProp (setProp p "Path".toList (.str path)) "Survey".toList (.str survey)
  prop_names.map (getProp p)

/-- One iteration of the extension loop of grab_pointings_from_survey for
one file: the candidate filter (extension, no cal in the name, not
ignored), the broken-symlink check, the size checks, and the handoff to
the metadata extractor with its UnicodeDecodeError handler. -/
def visitExt (cfg : IgnoreCfg) (survey : Str) (f : FileInfo) (st : WalkState) (ext : Str) :
    Except Abort WalkState :=
  let path := pyJoin f.root f.filename
  if pyEndswith f.filename ext && !(subIn "cal".toList f.filename) && is_good cfg path then
    if f.islink && !f.target_exists then
      let st1 := { st with broken_symlinks := st.broken_symlinks ++ [path] }
      if f.size = 0 then
        Except.ok { st1 with empty_files := st1.empty_files ++ [path] }
      else Except.ok st1
    else
      if f.size ≠ 0 then
        match parseFitsOrFil path f.ta f.tb with
        | .ok props =>
            Except.ok { st with pointings := st.pointings ++ [mkInfo props path survey] }
        | .unicodeError =>
            Except.ok { st with encoding_errors := st.encoding_errors ++ [path] }
        | .abort a => Except.error a
      else Except.ok { st with empty_files := st.empty_files ++ [path] }
  else Except.ok st

/-- The visit of one file during the walk: the body above run once per
recognized extension, for ext in [.fits, .fil]. -/
def visitFile (cfg : IgnoreCfg) (survey : Str) (f : FileInfo) (st : WalkState) :
    Except Abort WalkState :=
  [".fits".toList, ".fil".toList].foldlM (visitExt cfg survey f) st

/-- How many times a path occurs across the four accumulators: as the Path
field (the first schema column) of a pointing record, or as a member of
one of the three failure lists. -/
def pathOcc (st : WalkState) (q : Str) : Nat :=
  st.pointings.countP (fun rec => rec.headD (PropValue.int 0) == PropValue.str q)
    + st.broken_symlinks.count q + st.empty_files.count q + st.encoding_errors.count q

/-- One row of the directory-list file: the line stripped and split on
tabs. -/
def rowOfLine (line : Str) : List Str := splitTab (pyStrip line)

/-- Reading the directory-list file: each line becomes a row and the rows
are sorted.  Python sorted on rows is the lexicographic order on lists of
strings, strings ordered by code point, and is a stable sort; on a total
order any two stable sorts agree element by element, so insertion sort
realizes it. -/
def dirList (lines : List Str) : List (List Str) :=
  List.insertionSort (· ≤ ·) (lines.map rowOfLine)

/-- The unpacking survey, path = entry performed by the main loop for one
row: a row with exactly two fields unpacks, any other length raises
ValueError. -/
def unpackEntry : List Str → Except PyErr (Str × Str)
  | [s, p] => Except.ok (s, p)
  | _ => Except.error PyErr.valueError

/-- The main loop's unpacking of every row in order, stopping at the first
failure. -/
def unpackEntries : List (List Str) → Except PyErr (List (Str × Str))
  | [] => Except.ok []
  | e :: rest => do
      let sp ← unpackEntry e
      let ps ← unpackEntries rest
      pure (sp :: ps)

/-- One row of the ignore-list file: newlines removed, then split on
tabs. -/
def rowOfIgnoreLine (line : Str) : List Str := splitTab (line.filter fun c => c != '\n')

/-- The body of the ignore-list loading loop for one row: a row tagged file
or directory appends its second field to the respective accumulator,
raising IndexError when the second field is absent; a row with any other
first field is passed over without error (the empty-row branch mirrors
the IndexError Python would raise reading f[0], though a tab split is
never empty). -/
def igStep (acc : List Str × List Str) (line : Str) : Except PyErr (List Str × List Str) :=
  match rowOfIgnoreLine line with
  | tag :: r =>
      if tag = "file".toList then
        match r with
        | v :: _ => Except.ok (acc.1 ++ [v], acc.2)
        | [] => Except.error PyErr.indexError
      else if tag = "directory".toList then
        match r with
        | v :: _ => Except.ok (acc.1, acc.2 ++ [v])
        | [] => Except.error PyErr.indexError
      else Except.ok acc
  | [] => Except.error PyErr.indexError

/-- The ignore-list loading loop from a given pair of accumulators. -/
def loadIgnoreFrom (acc : List Str × List Str) : List Str → Except PyErr (List Str × List Str)
  | [] => Except.ok acc
  | line :: rest =>
      match igStep acc line with
      | .ok acc1 => loadIgnoreFrom acc1 rest
      | .error e => Except.error e

/-- The ignore-list loader applied to the whole file. -/
def loadIgnore (lines : List Str) : Except PyErr (List Str × List Str) :=
  loadIgnoreFrom ([], []) lines

/-- The report writer's joining of one record: TAB.join(pointing), written
by Python join semantics. -/
def joinTab : List Str → Str
  | [] => []
  | [r] => r
  | r :: rest => r ++ '\t' :: joinTab rest

/-- Modelled from the spec: the report reader absent from the source, a
plain tab-split parser applied to one written line. -/
def tabSplitLine (line : Str) : List Str := splitTab line

/-- Does the tool A parse-loop body write schema field name when handling
this line?  The disjunction of the guarding conditions of the fourteen
assignments of processLine, for a line splitting into at least two
parts. -/
def writesTo (name : Str) (line : Str) : Bool :=
  match splitSepEq (pyStrip line) with
  | k :: _ :: _ =>
      (prop_names.contains k && name == k)
      || (name == "MJD".toList && subIn "MJD start time".toList k)
      || (name == "Freq".toList && k == "Central freq (MHz)".toList)
      || (name == "Source name".toList && k == "Source Name".toList)
      || (name == "Sampling time".toList && k == "Sample time (us)".toList)
      || (name == "Bandwidth".toList && subIn "Total Bandwidth".toList k)
      || (name == "Freq channels".toList && k == "Number of channels".toList)
      || (name == "Pol_type".toList && k == "Polarization type".toList)
      || (name == "Num_pols".toList && k == "Number of polns".toList)
      || (name == "Bits".toList && subIn "bits".toList k)
      || (name == "Beam".toList && k == "Beam".toList)
      || (name == "f_high".toList && k == "Low channel (MHz)".toList)
      || (name == "f_low".toList && k == "High channel (MHz)".toList)
      || (name == "Length".toList && subIn "Time per file".toList k)
  | _ => false

/-- Does the tool B scan write schema field name when handling this line?
Only the backend mode is ever written, and only for a line mentioning
obs_mode after whitespace normalization. -/
def writesToB (name : Str) (line : Str) : Bool :=
  name == "Backend_mode".toList
    && subIn "obs_mode".toList (collapseSpaces (replTabs (pyStrip line)))

/-! Helper lemmas shared by the claim theorems. -/

/-- Reading a key through a conditional update. -/
theorem getProp_condSet (c : Bool) (k : Str) (v : PropValue) (p : Props) (n : Str) :
    getProp (condSet c k v p) n = if c = true ∧ n = k then v else getProp p n := by
  cases c
  · simp [condSet]
  · by_cases h : n = k <;> simp [condSet, setProp, getProp, h]

/-- Reading a key through an unconditional update. -/
theorem getProp_setProp (p : Props) (k : Str) (v : PropValue) (n : Str) :
    getProp (setProp p k v) n = if n = k then v else getProp p n := rfl

/-- A string cannot end in both recognized extensions: its last character
would have to be both s and l. -/
theorem not_fits_and_fil (s : Str) :
    ¬(pyEndswith s ".fits".toList = true ∧ pyEndswith s ".fil".toList = true) := by
  rintro ⟨h1, h2⟩
  obtain ⟨t1, ht1⟩ := List.isSuffixOf_iff_suffix.mp h1
  obtain ⟨t2, ht2⟩ := List.isSuffixOf_iff_suffix.mp h2
  have e1 : s.getLast? = some 's' := by
    rw [← ht1, List.getLast?_append]
    rfl
  have e2 : s.getLast? = some 'l' := by
    rw [← ht2, List.getLast?_append]
    rfl
  rw [e1] at e2
  simp at e2

/-- The extension-loop body leaves the state unchanged when the filename
does not carry the extension. -/
theorem visitExt_wrong_ext (cfg : IgnoreCfg) (survey : Str) (f : FileInfo) (st : WalkState)
    (ext : Str) (h : pyEndswith f.filename ext = false) :
    visitExt cfg survey f st ext = Except.ok st := by
  simp [visitExt, h]

/-- The extension-loop body leaves the state unchanged for a calibration
or ignored file. -/
theorem visitExt_skip (cfg : IgnoreCfg) (survey : Str) (f : FileInfo) (st : WalkState)
    (ext : Str)
    (h : subIn "cal".toList f.filename = true ∨
      is_good cfg (pyJoin f.root f.filename) = false) :
    visitExt cfg survey f st ext = Except.ok st := by
  rcases h with h | h
  · have h' : subIn ['c', 'a', 'l'] f.filename = true := h
    simp [visitExt, h']
  · simp [visitExt, h]

/-- The visit of one file unfolded into its two extension iterations. -/
theorem visitFile_eq (cfg : IgnoreCfg) (survey : Str) (f : FileInfo) (st : WalkState) :
    visitFile cfg survey f st =
      (visitExt cfg survey f st ".fits".toList).bind
        (fun st1 => visitExt cfg survey f st1 ".fil".toList) := by
  simp [visitFile, List.foldlM]
  rcases visitExt cfg survey f st ".fits".toList with a | st1
  · rfl
  · rcases visitExt cfg survey f st1 ".fil".toList with a | st2 <;> rfl

/-! Claim theorems. -/

/-- C9: a tool A output line that does not split on the key-value separator
into at least two parts is ignored: the parse loop raises no error on it
and the properties dictionary is unchanged. -/
theorem c9_short_lines_ignored (p : Props) (line : Str)
    (h : (splitSepEq (pyStrip line)).length < 2) :
    processLine p line = Except.ok p := by
  rcases hs : splitSepEq (pyStrip line) with _ | ⟨k, rest⟩
  · simp [processLine, hs]
  · rcases rest with _ | ⟨v, r⟩
    · simp [processLine, hs]
    · rw [hs] at h
      simp at h
      omega

/-- Witness for C9 at the concrete line hello. -/
theorem c9_witness : processLine initProps "hello".toList = Except.ok initProps :=
  c9_short_lines_ignored initProps "hello".toList (by decide)

/-- C10: the parse loop stores the Low channel (MHz) value in the f_high
field and the High channel (MHz) value in the f_low field: the frequency
band edges go to the crossed-over field names, each leaving the other
field untouched. -/
theorem c10_channel_fields_crossed (p : Props) (line : Str) (v : Str) :
    (splitSepEq (pyStrip line) = ["Low channel (MHz)".toList, v] →
      processLine p line = Except.ok (setProp p "f_high".toList (PropValue.str v)) ∧
      getProp (setProp p "f_high".toList (PropValue.str v)) "f_high".toList =
        PropValue.str v ∧
      getProp (setProp p "f_high".toList (PropValue.str v)) "f_low".toList =
        getProp p "f_low".toList) ∧
    (splitSepEq (pyStrip line) = ["High channel (MHz)".toList, v] →
      processLine p line = Except.ok (setProp p "f_low".toList (PropValue.str v)) ∧
      getProp (setProp p "f_low".toList (PropValue.str v)) "f_low".toList =
        PropValue.str v ∧
      getProp (setProp p "f_low".toList (PropValue.str v)) "f_high".toList =
        getProp p "f_high".toList) := by
  constructor
  · intro h
    refine ⟨?_, ?_, ?_⟩
    · simp +decide [processLine, h, condSet]
    · simp [getProp_setProp]
    · simp +decide [getProp_setProp]
  · intro h
    refine ⟨?_, ?_, ?_⟩
    · simp +decide [processLine, h, condSet]
    · simp [getProp_setProp]
    · simp +decide [getProp_setProp]

/-- Witness for C10 at the concrete lines for both channel keys. -/
theorem c10_witness :
    processLine initProps "Low channel (MHz) = 1100".toList =
      Except.ok (setProp initProps "f_high".toList (PropValue.str "1100".toList)) ∧
    processLine initProps "High channel (MHz) = 1500".toList =
      Except.ok (setProp initProps "f_low".toList (PropValue.str "1500".toList)) :=
  ⟨((c10_channel_fields_crossed initProps "Low channel (MHz) = 1100".toList
      "1100".toList).1 (by decide)).1,
   ((c10_channel_fields_crossed initProps "High channel (MHz) = 1500".toList
      "1500".toList).2 (by decide)).1⟩

/-- C1 (code bug): a file whose metadata extraction completes with a field
still equal to the missing sentinel does not produce a warning plus a
returned record; the diagnostic block indexes the prop_names list with a
string key, raising an uncaught TypeError that aborts the run.  Evaluated
here at a .fits file whose tools run but emit no fields. -/
theorem c1_missing_fields_raise_typeerror :
    parseFitsOrFil "a.fits".toList (ToolRun.ok []) (ToolRun.ok []) =
      ParseOutcome.abort (Abort.uncaught PyErr.typeError) := rfl

/-- C7: a candidate whose filename contains cal, or that is ignored by
exact path or by an ignored-directory substring, leaves the walker state
untouched: no pointing record and no failure-category entry. -/
theorem c7_cal_and_ignored_produce_nothing (cfg : IgnoreCfg) (survey : Str) (f : FileInfo)
    (st : WalkState)
    (h : subIn "cal".toList f.filename = true ∨
      is_good cfg (pyJoin f.root f.filename) = false) :
    visitFile cfg survey f st = Except.ok st := by
  rw [visitFile_eq, visitExt_skip cfg survey f st _ h]
  exact visitExt_skip cfg survey f st _ h

/-- Witness for C7 at a concrete calibration file and a concrete ignored
file. -/
theorem c7_witness :
    visitFile ⟨[], []⟩ "S".toList
      ⟨"/d".toList, "obs1_cal.fits".toList, false, true, 5, ToolRun.ok [], ToolRun.ok []⟩
      ⟨[], [], [], []⟩ = Except.ok ⟨[], [], [], []⟩ ∧
    visitFile ⟨["/d/obs2.fits".toList], []⟩ "S".toList
      ⟨"/d".toList, "obs2.fits".toList, false, true, 5, ToolRun.ok [], ToolRun.ok []⟩
      ⟨[], [], [], []⟩ = Except.ok ⟨[], [], [], []⟩ :=
  ⟨c7_cal_and_ignored_produce_nothing _ _ _ _ (Or.inl (by decide)),
   c7_cal_and_ignored_produce_nothing _ _ _ _ (Or.inr (by decide))⟩

/-- The extension-loop body on a candidate that reaches the extractor while
readfile fails: the argumentless sys.exit aborts with status zero. -/
theorem visitExt_toolfail (cfg : IgnoreCfg) (survey : Str) (f : FileInfo) (st : WalkState)
    (ext : Str) (hta : f.ta = ToolRun.callFails)
    (hext : pyEndswith f.filename ext = true)
    (hcal : subIn "cal".toList f.filename = false)
    (hgood : is_good cfg (pyJoin f.root f.filename) = true)
    (hlink : f.islink = false ∨ f.target_exists = true)
    (hsize : f.size ≠ 0) :
    visitExt cfg survey f st ext = Except.error (Abort.sysExit 0) := by
  have hcal' : subIn ['c', 'a', 'l'] f.filename = false := hcal
  have hne : ¬(f.islink = true ∧ f.target_exists = false) := by
    rcases hlink with h | h <;> simp [h]
  simp [visitExt, hext, hcal', hgood, hne, hsize, hta, parseFitsOrFil]

/-- C4 counterexample: on the readfile-invocation-failure path the process
terminates through an argumentless sys.exit, whose exit status is zero,
not the non-zero status the claim asserts. -/
theorem c4_toolfail_exits_zero :
    parseFitsOrFil "a.fil".toList ToolRun.callFails (ToolRun.ok []) =
      ParseOutcome.abort (Abort.sysExit 0) ∧
    Abort.sysExit 0 ≠ Abort.sysExit 1 ∧ ¬((0 : Nat) ≠ 0) :=
  ⟨rfl, by decide, fun h => h rfl⟩

/-- C4 as amended: if readfile fails on any candidate file that reaches the
extractor, the whole run aborts immediately, but the process exit status
is zero (argumentless sys.exit), not non-zero. -/
theorem c4_amended_toolfail_aborts_with_exit_zero (cfg : IgnoreCfg) (survey : Str)
    (f : FileInfo) (st : WalkState) (hta : f.ta = ToolRun.callFails)
    (hext : pyEndswith f.filename ".fits".toList = true ∨
      pyEndswith f.filename ".fil".toList = true)
    (hcal : subIn "cal".toList f.filename = false)
    (hgood : is_good cfg (pyJoin f.root f.filename) = true)
    (hlink : f.islink = false ∨ f.target_exists = true)
    (hsize : f.size ≠ 0) :
    visitFile cfg survey f st = Except.error (Abort.sysExit 0) := by
  rcases hext with hx | hx
  · rw [visitFile_eq, visitExt_toolfail cfg survey f st _ hta hx hcal hgood hlink hsize]
    rfl
  · have hnotfits : pyEndswith f.filename ".fits".toList = false := by
      cases hfits : pyEndswith f.filename ".fits".toList
      · rfl
      · exact absurd ⟨hfits, hx⟩ (not_fits_and_fil f.filename)
    rw [visitFile_eq, visitExt_wrong_ext cfg survey f st _ hnotfits]
    exact visitExt_toolfail cfg survey f st _ hta hx hcal hgood hlink hsize

/-- Witness for the amended C4 at a concrete candidate file. -/
theorem c4_witness :
    visitFile ⟨[], []⟩ "S".toList
      ⟨"/d".toList, "a.fits".toList, false, true, 1, ToolRun.callFails, ToolRun.ok []⟩
      ⟨[], [], [], []⟩ = Except.error (Abort.sysExit 0) :=
  c4_amended_toolfail_aborts_with_exit_zero _ _ _ _ rfl (Or.inl (by decide))
    (by decide) (by decide) (Or.inl rfl) (by decide)

/-- Any error produced by the ignore-list loop body is an IndexError. -/
theorem igStep_error_eq (acc : List Str × List Str) (line : Str) (e : PyErr)
    (h : igStep acc line = Except.error e) : e = PyErr.indexError := by
  unfold igStep at h
  rcases hrow : rowOfIgnoreLine line with _ | ⟨tag, r⟩ <;> rw [hrow] at h
  · exact (Except.error.inj h).symm
  · by_cases t1 : tag = "file".toList
    · have t1' : tag = ['f', 'i', 'l', 'e'] := t1
      rcases r with _ | ⟨v, r2⟩ <;> simp [t1'] at h
      exact h.symm
    · have t1' : ¬tag = ['f', 'i', 'l', 'e'] := t1
      by_cases t2 : tag = "directory".toList
      · have t2' : tag = ['d', 'i', 'r', 'e', 'c', 't', 'o', 'r', 'y'] := t2
        rcases r with _ | ⟨v, r2⟩ <;> simp [t1', t2'] at h
        exact h.symm
      · have t2' : ¬tag = ['d', 'i', 'r', 'e', 'c', 't', 'o', 'r', 'y'] := t2
        simp [t1', t2'] at h

/-- A row consisting of just a file or directory tag makes the loop body
raise IndexError. -/
theorem igStep_badrow (acc : List Str × List Str) (line : Str)
    (h : rowOfIgnoreLine line = ["file".toList] ∨
      rowOfIgnoreLine line = ["directory".toList]) :
    igStep acc line = Except.error PyErr.indexError := by
  rcases h with h | h <;> simp +decide [igStep, h]

/-- When some line of the ignore list is a bare tagged row, the loader
raises IndexError no matter the accumulators. -/
theorem loadIgnoreFrom_badrow : ∀ (lines : List Str) (acc : List Str × List Str),
    (∃ l ∈ lines, rowOfIgnoreLine l = ["file".toList] ∨
      rowOfIgnoreLine l = ["directory".toList]) →
    loadIgnoreFrom acc lines = Except.error PyErr.indexError
  | [], acc, hex => by simp at hex
  | line :: rest, acc, hex => by
      rcases hex with ⟨l, hl, hcase⟩
      rcases List.mem_cons.mp hl with rfl | hmem
      · rw [loadIgnoreFrom, igStep_badrow acc l hcase]
      · rcases hstep : igStep acc line with e | acc1
        · rw [loadIgnoreFrom, hstep]
          rw [igStep_error_eq acc line e hstep]
        · rw [loadIgnoreFrom, hstep]
          exact loadIgnoreFrom_badrow rest acc1 ⟨l, hmem, hcase⟩

/-- C8 counterexample: a malformed one-column ignore-list row whose sole
field is not a recognized tag is silently skipped by the loader, which
returns empty ignore sets without raising. -/
theorem c8_malformed_ignore_row_silently_skipped :
    loadIgnore ["junk".toList] = Except.ok ([], []) ∧
    (rowOfIgnoreLine "junk".toList).length ≠ 2 :=
  ⟨rfl, by decide⟩

/-- C8 as amended: a directory-list row with a column count other than two
raises ValueError when the main loop unpacks it, and an ignore-list row
consisting of a bare file or directory tag raises IndexError in the
loader; other malformed ignore-list rows are silently skipped or their
extra columns silently dropped. -/
theorem c8_amended_failure_modes :
    (∀ e : List Str, e.length ≠ 2 → unpackEntry e = Except.error PyErr.valueError) ∧
    (∀ lines : List Str,
      (∃ l ∈ lines, rowOfIgnoreLine l = ["file".toList] ∨
        rowOfIgnoreLine l = ["directory".toList]) →
      loadIgnore lines = Except.error PyErr.indexError) := by
  constructor
  · intro e he
    rcases e with _ | ⟨a, _ | ⟨b, _ | ⟨c, r⟩⟩⟩
    · rfl
    · rfl
    · exact absurd rfl he
    · rfl
  · intro lines hex
    exact loadIgnoreFrom_badrow lines ([], []) hex

/-- Witness for the amended C8 at a concrete one-column row and a concrete
bare file tag. -/
theorem c8_witness :
    unpackEntry ["a".toList] = Except.error PyErr.valueError ∧
    loadIgnore ["file".toList] = Except.error PyErr.indexError :=
  ⟨c8_amended_failure_modes.1 ["a".toList] (by decide),
   c8_amended_failure_modes.2 ["file".toList] ⟨"file".toList, by simp, Or.inl (by decide)⟩⟩

/-- A tab-free string is one whole split group. -/
theorem splitTab_noTab : ∀ (x : Str), '\t' ∉ x → splitTab x = [x]
  | [], _ => rfl
  | c :: t, h => by
      have hc : ¬c = '\t' := fun e => h (e ▸ List.mem_cons_self c t)
      have ih := splitTab_noTab t fun m => h (List.mem_cons_of_mem c m)
      simp [splitTab, hc, ih]

/-- Splitting after a tab-free prefix peels it off as the first group. -/
theorem splitTab_append : ∀ (x z : Str), '\t' ∉ x →
    splitTab (x ++ '\t' :: z) = x :: splitTab z
  | [], z, _ => by simp [splitTab]
  | c :: t, z, h => by
      have hc : ¬c = '\t' := fun e => h (e ▸ List.mem_cons_self c t)
      have ih := splitTab_append t z fun m => h (List.mem_cons_of_mem c m)
      simp [splitTab, hc, ih]

/-- C5 counterexample: a record holding a tab inside a field value (for
example a file path containing a tab) does not survive the write-then-parse
round trip; splitting the written line yields one more field than was
written. -/
theorem c5_tab_field_breaks_roundtrip :
    tabSplitLine (joinTab
      ["/d/a\tb.fits".toList, "S".toList, "GBT".toList, "Rcvr".toList, "BE".toList,
       "55000".toList, "12:00:00".toList, "10:00:00".toList, "1400".toList, "120".toList,
       "0.000064".toList, "800".toList, "4096".toList, "2".toList, "B0531+21".toList,
       "8".toList, "0".toList, "1900".toList, "1100".toList, "LIN".toList, "PSR".toList]) ≠
      ["/d/a\tb.fits".toList, "S".toList, "GBT".toList, "Rcvr".toList, "BE".toList,
       "55000".toList, "12:00:00".toList, "10:00:00".toList, "1400".toList, "120".toList,
       "0.000064".toList, "800".toList, "4096".toList, "2".toList, "B0531+21".toList,
       "8".toList, "0".toList, "1900".toList, "1100".toList, "LIN".toList, "PSR".toList] := by
  decide

/-- C5 as amended: for every nonempty record none of whose field values
contains a tab character, splitting the written line on tabs recovers
exactly the ordered field values that were written. -/
theorem c5_roundtrip_tab_free : ∀ (rec : List Str), rec ≠ [] →
    (∀ x ∈ rec, '\t' ∉ x) → tabSplitLine (joinTab rec) = rec
  | [], hne, _ => absurd rfl hne
  | [x], _, h => by
      have : '\t' ∉ x := h x (List.mem_singleton_self x)
      simp [joinTab, tabSplitLine, splitTab_noTab x this]
  | x :: y :: rest, _, h => by
      have hx : '\t' ∉ x := h x (List.mem_cons_self x (y :: rest))
      have ih := c5_roundtrip_tab_free (y :: rest) (by simp)
        fun z hz => h z (List.mem_cons_of_mem x hz)
      calc tabSplitLine (joinTab (x :: y :: rest))
          = x :: tabSplitLine (joinTab (y :: rest)) := by
            simp [joinTab, tabSplitLine, splitTab_append _ _ hx]
        _ = x :: y :: rest := by rw [ih]

/-- Witness for the amended C5 at a concrete two-field record. -/
theorem c5_witness :
    tabSplitLine (joinTab ["/d/a.fits".toList, "SURVEY1".toList]) =
      ["/d/a.fits".toList, "SURVEY1".toList] :=
  c5_roundtrip_tab_free ["/d/a.fits".toList, "SURVEY1".toList] (by simp) (by decide)

/-- Rows of exactly two fields unpack in order into survey-path pairs that
reassemble to the very same rows. -/
theorem unpackEntries_ok : ∀ (es : List (List Str)), (∀ r ∈ es, r.length = 2) →
    Except.map (fun ps => ps.map fun sp => [sp.1, sp.2]) (unpackEntries es) =
      Except.ok es
  | [], _ => rfl
  | e :: rest, h => by
      obtain ⟨s, p, rfl⟩ : ∃ s p, e = [s, p] := by
        have h2 := h e (List.mem_cons_self e rest)
        rcases e with _ | ⟨a, _ | ⟨b, _ | ⟨c, r⟩⟩⟩ <;> simp at h2
        exact ⟨a, b, rfl⟩
      have ih := unpackEntries_ok rest fun r hr => h r (List.mem_cons_of_mem _ hr)
      rcases hrest : unpackEntries rest with e2 | ps <;> rw [hrest] at ih
      · simp [Except.map] at ih
      · have hps : ps.map (fun sp => [sp.1, sp.2]) = rest := by
          simpa [Except.map] using ih
        have hstep : unpackEntries ([s, p] :: rest) = Except.ok ((s, p) :: ps) := by
          simp [unpackEntries, unpackEntry, hrest]
          rfl
        rw [hstep]
        simp [Except.map, hps]

/-- C6: the processed directory-list rows are exactly the rows of the file
(as a permutation, hence equal as sets), arranged in the lexicographic
order on survey-path rows, so the same input always produces the same
processing order; when every row is well formed the main loop unpacks
them all, in that order. -/
theorem c6_sorted_deterministic_order (lines : List Str) :
    (dirList lines).Perm (lines.map rowOfLine) ∧
    List.Sorted (· ≤ ·) (dirList lines) ∧
    ((∀ l ∈ lines, (rowOfLine l).length = 2) →
      Except.map (fun ps => ps.map fun sp => [sp.1, sp.2])
        (unpackEntries (dirList lines)) = Except.ok (dirList lines)) := by
  refine ⟨List.perm_insertionSort _ _, List.sorted_insertionSort _ _, ?_⟩
  intro hwf
  refine unpackEntries_ok (dirList lines) ?_
  intro r hr
  have hmem : r ∈ lines.map rowOfLine :=
    ((List.perm_insertionSort (· ≤ ·) (lines.map rowOfLine)).mem_iff).mp hr
  obtain ⟨l, hl, rfl⟩ := List.mem_map.mp hmem
  exact hwf l hl

/-- Witness for C6 at a concrete two-row directory list given in reverse
order. -/
theorem c6_witness :
    List.Sorted (· ≤ ·) (dirList ["b\t/x".toList, "a\t/y".toList]) ∧
    Except.map (fun ps => ps.map fun sp => [sp.1, sp.2])
      (unpackEntries (dirList ["b\t/x".toList, "a\t/y".toList])) =
      Except.ok (dirList ["b\t/x".toList, "a\t/y".toList]) :=
  ⟨(c6_sorted_deterministic_order ["b\t/x".toList, "a\t/y".toList]).2.1,
   (c6_sorted_deterministic_order ["b\t/x".toList, "a\t/y".toList]).2.2 (by decide)⟩

/-- Appending one pointing record raises a path's occurrence count by at
most one. -/
theorem pathOcc_append_pointing (st : WalkState) (r : List PropValue) (q : Str) :
    pathOcc { st with pointings := st.pointings ++ [r] } q ≤ pathOcc st q + 1 := by
  have h : List.countP (fun rec => rec.headD (PropValue.int 0) == PropValue.str q) [r] ≤ 1 :=
    List.countP_le_length _
  simp [pathOcc, List.countP_append, List.count_append] at h ⊢
  omega

/-- Appending one broken-symlink path raises a path's occurrence count by
at most one. -/
theorem pathOcc_append_broken (st : WalkState) (x : Str) (q : Str) :
    pathOcc { st with broken_symlinks := st.broken_symlinks ++ [x] } q ≤ pathOcc st q + 1 := by
  have h : List.count q [x] ≤ 1 := List.count_le_length q [x]
  simp [pathOcc, List.count_append] at h ⊢
  omega

/-- Appending one empty-file path raises a path's occurrence count by at
most one. -/
theorem pathOcc_append_empty (st : WalkState) (x : Str) (q : Str) :
    pathOcc { st with empty_files := st.empty_files ++ [x] } q ≤ pathOcc st q + 1 := by
  have h : List.count q [x] ≤ 1 := List.count_le_length q [x]
  simp [pathOcc, List.count_append] at h ⊢
  omega

/-- Appending one encoding-error path raises a path's occurrence count by
at most one. -/
theorem pathOcc_append_encoding (st : WalkState) (x : Str) (q : Str) :
    pathOcc { st with encoding_errors := st.encoding_errors ++ [x] } q ≤ pathOcc st q + 1 := by
  have h : List.count q [x] ≤ 1 := List.count_le_length q [x]
  simp [pathOcc, List.count_append] at h ⊢
  omega

/-- One extension-loop iteration that returns normally adds at most one
occurrence of any path, and none at all when the filename does not carry
the extension; a broken symlink never also counts as empty because ls -l
reports a symlink's own size, the length of its never-empty target. -/
theorem visitExt_occ (cfg : IgnoreCfg) (survey : Str) (f : FileInfo) (st : WalkState)
    (ext : Str) (st' : WalkState) (q : Str)
    (hwf : f.islink = true → f.size ≠ 0)
    (hok : visitExt cfg survey f st ext = Except.ok st') :
    pathOcc st' q ≤ pathOcc st q +
      (if pyEndswith f.filename ext = true then 1 else 0) := by
  rcases hext : pyEndswith f.filename ext with _ | _
  · rw [visitExt_wrong_ext cfg survey f st ext hext] at hok
    cases hok
    simp
  · simp only [hext, if_pos]
    simp only [visitExt, hext, Bool.true_and] at hok
    by_cases hcal : subIn "cal".toList f.filename = true
    · have hcal' : subIn ['c', 'a', 'l'] f.filename = true := hcal
      simp [hcal'] at hok
      subst hok
      omega
    · have hcal2 : subIn "cal".toList f.filename = false := by
        cases h2 : subIn "cal".toList f.filename
        · rfl
        · exact absurd h2 hcal
      by_cases hgood : is_good cfg (pyJoin f.root f.filename) = true
      · simp only [hcal2, Bool.not_false, Bool.true_and, hgood, Bool.and_true] at hok
        rw [if_pos trivial] at hok
        by_cases hlink2 : (f.islink && !f.target_exists) = true
        · have hli : f.islink = true := ((Bool.and_eq_true _ _).mp hlink2).1
          have hsz : f.size ≠ 0 := hwf hli
          rw [if_pos hlink2, if_neg hsz] at hok
          cases hok
          exact pathOcc_append_broken st _ q
        · rw [if_neg hlink2] at hok
          by_cases hsz : f.size ≠ 0
          · rw [if_pos hsz] at hok
            rcases hp : parseFitsOrFil (pyJoin f.root f.filename) f.ta f.tb with p | _ | a <;>
              rw [hp] at hok
            · cases hok
              exact pathOcc_append_pointing st _ q
            · cases hok
              exact pathOcc_append_encoding st _ q
            · cases hok
          · rw [if_neg hsz] at hok
            cases hok
            exact pathOcc_append_empty st _ q
      · have hgood' : is_good cfg (pyJoin f.root f.filename) = false := by
          cases h2 : is_good cfg (pyJoin f.root f.filename)
          · rfl
          · exact absurd h2 hgood
        simp only [hcal2, Bool.not_false, Bool.true_and, hgood', Bool.and_false,
          Bool.false_eq_true, if_false] at hok
        cases hok
        omega

/-- A one-or-zero bound for the extension indicator. -/
theorem ext_indicator_le_one (s ext : Str) :
    (if pyEndswith s ext = true then 1 else 0) ≤ 1 := by
  split <;> omega

/-- C3: a visited file's path lands in at most one of the four accumulators
(a pointing record's Path column or one of the three failure lists): a
single visit never adds two occurrences of any path, given that ls -l
reports a nonzero size for a symbolic link (the length of its never-empty
target path). -/
theorem c3_at_most_one_category (cfg : IgnoreCfg) (survey : Str) (f : FileInfo)
    (st st' : WalkState) (q : Str)
    (hwf : f.islink = true → f.size ≠ 0)
    (hok : visitFile cfg survey f st = Except.ok st')
    (h0 : pathOcc st q = 0) : pathOcc st' q ≤ 1 := by
  rw [visitFile_eq] at hok
  rcases h1 : visitExt cfg survey f st ".fits".toList with a | st1 <;> rw [h1] at hok
  · cases hok
  · have hok2 : visitExt cfg survey f st1 ".fil".toList = Except.ok st' := hok
    have b1 := visitExt_occ cfg survey f st ".fits".toList st1 q hwf h1
    have b2 := visitExt_occ cfg survey f st1 ".fil".toList st' q hwf hok2
    rcases hfits : pyEndswith f.filename ".fits".toList with _ | _
    · rw [hfits] at b1
      have b3 := ext_indicator_le_one f.filename ".fil".toList
      simp at b1
      omega
    · have hfil : pyEndswith f.filename ".fil".toList = false := by
        cases h2 : pyEndswith f.filename ".fil".toList
        · rfl
        · exact absurd ⟨hfits, h2⟩ (not_fits_and_fil f.filename)
      rw [hfits] at b1
      rw [hfil] at b2
      simp at b1 b2
      omega

/-- Witness for C3 at a concrete broken symbolic link. -/
theorem c3_witness :
    pathOcc ⟨[], ["/d/obs2.fits".toList], [], []⟩ "/d/obs2.fits".toList ≤ 1 :=
  c3_at_most_one_category ⟨[], []⟩ "S".toList
    ⟨"/d".toList, "obs2.fits".toList, true, false, 1, ToolRun.ok [], ToolRun.ok []⟩
    ⟨[], [], [], []⟩ ⟨[], ["/d/obs2.fits".toList], [], []⟩ "/d/obs2.fits".toList
    (fun _ => by decide) rfl (by decide)

/-- A layer guard fails when its source condition, tag first, is false. -/
theorem neg_layer_right {a : Bool} {n m : Str} (w : ((n == m) && a) = false) :
    ¬(a = true ∧ n = m) := by
  rintro ⟨h1, rfl⟩
  simp [h1] at w

/-- A layer guard fails when its source condition, tag last, is false. -/
theorem neg_layer_left {a : Bool} {n m : Str} (w : (a && (n == m)) = false) :
    ¬(a = true ∧ n = m) := by
  rintro ⟨h1, rfl⟩
  simp [h1] at w

/-- A layer guard with an exact key comparison fails when its source
condition is false. -/
theorem neg_layer_decide {x y n m : Str} (w : ((n == m) && (x == y)) = false) :
    ¬(decide (x = y) = true ∧ n = m) := by
  rintro ⟨h1, rfl⟩
  have hxy : x = y := of_decide_eq_true h1
  subst hxy
  simp at w

/-- Frame property of one parse-loop line: a field the line does not write
keeps its value. -/
theorem getProp_processLine_frame (p p' : Props) (line name : Str)
    (hw : writesTo name line = false) (hok : processLine p line = Except.ok p') :
    getProp p' name = getProp p name := by
  rcases hs : splitSepEq (pyStrip line) with _ | ⟨k, rest⟩
  · simp only [processLine, hs] at hok
    cases hok
    rfl
  · rcases rest with _ | ⟨v, r⟩
    · simp only [processLine, hs] at hok
      cases hok
      rfl
    · simp only [writesTo, hs, Bool.or_eq_false_iff] at hw
      obtain ⟨⟨⟨⟨⟨⟨⟨⟨⟨⟨⟨⟨⟨w1, w2⟩, w3⟩, w4⟩, w5⟩, w6⟩, w7⟩, w8⟩,
        w9⟩, w10⟩, w11⟩, w12⟩, w13⟩, w14⟩ := hw
      simp only [processLine, hs] at hok
      rcases hc : (decide (k = "Sample time (us)".toList) && !pyFloatOk v) with _ | _
      · rw [hc] at hok
        simp only [Bool.false_eq_true, if_false] at hok
        cases hok
        simp only [getProp_condSet]
        rw [if_neg (neg_layer_right w14), if_neg (neg_layer_decide w13),
          if_neg (neg_layer_decide w12), if_neg (neg_layer_decide w11),
          if_neg (neg_layer_right w10), if_neg (neg_layer_decide w9),
          if_neg (neg_layer_decide w8), if_neg (neg_layer_decide w7),
          if_neg (neg_layer_right w6), if_neg (neg_layer_decide w5),
          if_neg (neg_layer_decide w4), if_neg (neg_layer_decide w3),
          if_neg (neg_layer_right w2), if_neg (neg_layer_left w1)]
      · rw [hc] at hok
        rw [if_pos rfl] at hok
        cases hok


/-- Frame property of the whole tool A parse loop. -/
theorem getProp_processLines_frame : ∀ (lines : List Str) (p p' : Props) (name : Str),
    (∀ l ∈ lines, writesTo name l = false) →
    processLines p lines = Except.ok p' → getProp p' name = getProp p name
  | [], p, p', name, _, hok => by
      simp only [processLines, List.foldlM_nil] at hok
      cases hok
      rfl
  | l :: rest, p, p', name, hw, hok => by
      simp only [processLines, List.foldlM_cons] at hok
      rcases hstep : processLine p l with e | p1 <;> rw [hstep] at hok
      · have himp : (Except.error e : Except PyErr Props) = Except.ok p' := hok
        cases himp
      · have hrest : processLines p1 rest = Except.ok p' := hok
        have h1 := getProp_processLine_frame p p1 l name
          (hw l (List.mem_cons_self l rest)) hstep
        have h2 := getProp_processLines_frame rest p1 p' name
          (fun x hx => hw x (List.mem_cons_of_mem l hx)) hrest
        rw [h2, h1]

/-- Frame property of one tool B line: a field the line does not write keeps
its value. -/
theorem getProp_processBLine_frame (p : Props) (line name : Str)
    (hw : writesToB name line = false) :
    getProp (processBLine p line) name = getProp p name := by
  simp only [processBLine]
  by_cases hobs : subIn "obs_mode".toList (collapseSpaces (replTabs (pyStrip line))) = true
  · rw [if_pos hobs]
    have hname : ¬name = "Backend_mode".toList := by
      intro h
      subst h
      have hobs2 : subIn ['o', 'b', 's', '_', 'm', 'o', 'd', 'e']
        (collapseSpaces (replTabs (pyStrip line))) = true := hobs
      simp [writesToB, hobs2] at hw
    rw [getProp_setProp, if_neg hname]
  · rw [if_neg hobs]

/-- Frame property of the whole tool B scan. -/
theorem getProp_foldBLines_frame : ∀ (bLines : List Str) (p : Props) (name : Str),
    (∀ l ∈ bLines, writesToB name l = false) →
    getProp (bLines.foldl processBLine p) name = getProp p name
  | [], _, _, _ => rfl
  | l :: rest, p, name, hw => by
      rw [List.foldl_cons]
      rw [getProp_foldBLines_frame rest (processBLine p l) name
        (fun x hx => hw x (List.mem_cons_of_mem l hx))]
      exact getProp_processBLine_frame p l name (hw l (List.mem_cons_self l rest))

/-- C2 as amended: after the population phase (the tool A parse loop with
its Beam default, then the tool B scan), every schema field that no tool
output line writes holds the missing sentinel None, except Beam, which
holds the integer 0 default; fields that are written hold what the update
rules assign. -/
theorem c2_amended_unwritten_fields_default (aLines bLines : List Str) (name : Str)
    (p1 : Props) (hn : name ∈ prop_names)
    (ha : ∀ l ∈ aLines, writesTo name l = false)
    (hok : processLines (setProp initProps "Beam".toList (PropValue.int 0)) aLines =
      Except.ok p1)
    (hb : ∀ l ∈ bLines, writesToB name l = false) :
    getProp (bLines.foldl processBLine p1) name =
      if name = "Beam".toList then PropValue.int 0 else PropValue.str "None".toList := by
  rw [getProp_foldBLines_frame bLines p1 name hb]
  rw [getProp_processLines_frame aLines _ p1 name ha hok]
  rw [getProp_setProp]
  by_cases h : name = "Beam".toList
  · rw [if_pos h, if_pos h]
  · rw [if_neg h, if_neg h]
    rfl

set_option maxRecDepth 40000 in
/-- C2 counterexample: when the tools emit every field except Beam, the
extractor returns a record whose Beam field is the integer 0 — a default
different from the missing sentinel None. -/
theorem c2_beam_default_not_sentinel :
    outcomeField (parseFitsOrFil "a.fil".toList
        (ToolRun.ok ["Path = x".toList, "Survey = x".toList, "Telescope = x".toList,
          "Frontend = x".toList, "Backend = x".toList, "MJD = x".toList,
          "RA J2000 = x".toList, "Dec J2000 = x".toList, "Freq = x".toList,
          "Length = x".toList, "Sampling time = x".toList, "Bandwidth = x".toList,
          "Freq channels = x".toList, "Num_pols = x".toList, "Source name = x".toList,
          "Bits = x".toList, "f_high = x".toList, "f_low = x".toList,
          "Pol_type = x".toList, "Backend_mode = x".toList]) (ToolRun.ok []))
      "Beam".toList = some (PropValue.int 0) ∧
    some (PropValue.int 0) ≠ some (PropValue.str "None".toList) :=
  ⟨rfl, by decide⟩

/-- Witness for the amended C2: with no tool output at all, the Telescope
field of the populated dictionary is the sentinel None. -/
theorem c2_witness :
    getProp (List.foldl processBLine
      (setProp initProps "Beam".toList (PropValue.int 0)) []) "Telescope".toList =
      PropValue.str "None".toList := by
  have h := c2_amended_unwritten_fields_default [] [] "Telescope".toList
    (setProp initProps "Beam".toList (PropValue.int 0)) (by decide)
    (by simp) rfl (by simp)
  have h2 : ¬("Telescope".toList = "Beam".toList) := by decide
  rw [if_neg h2] at h
  exact h

end FindPointings
